import Mathlib

/-!
Shallow embedding of the AppCDS shared-class registry interface declared in
`src/hotspot/share/classfile/systemDictionaryShared.hpp`.

Class names (`Symbol*` in HotSpot) are modelled as byte sequences (`List Nat`),
machine integers as `Int`/`Nat`, object references (`oop`) as `Nat` identities,
and `NULL`-able values as `Option`.  Functions whose bodies live only in the
(absent) `systemDictionaryShared.cpp` are modelled from the spec and carry a
doc comment saying so.
-/

namespace SDShared

/-- A HotSpot `Symbol*`: an interned byte sequence (a qualified class or
package name). -/
abbrev Sym := List Nat

/-- The directive `#define UNREGISTERED_INDEX -9999` (systemDictionaryShared.hpp line 103):
the sentinel `shared_classpath_index` of an UNREGISTERED archived class. -/
def UNREGISTERED_INDEX : Int := -9999

/-- Embeds `SystemDictionaryShared::is_builtin` (lines 293-295):
`return (k->shared_classpath_index() != UNREGISTERED_INDEX);`
embedded over the class's `shared_classpath_index` value. -/
def is_builtin (shared_classpath_index : Int) : Bool :=
  shared_classpath_index ≠ UNREGISTERED_INDEX

/-- The two storage categories of archived classes (header comment block [1]). -/
inductive StorageCategory where
  | BuiltinCategory
  | UnregisteredCategory
deriving DecidableEq

/-- Classifier per header comment block [3]: BUILTIN iff
`shared_classpath_index() >= 0`, UNREGISTERED iff it equals the sentinel. -/
def classify (shared_classpath_index : Int) : StorageCategory :=
  if 0 ≤ shared_classpath_index then StorageCategory.BuiltinCategory
  else StorageCategory.UnregisteredCategory

/-- The flag `DEBUG_ONLY(static bool _no_class_loading_should_happen)` (line 222):
the accessor `no_class_loading_should_happen()` (line 309) just reads it. -/
def no_class_loading_should_happen (flag : Bool) : Bool := flag

/-- The `NoClassLoadingMark` constructor (lines 314-317):
`assert(!_no_class_loading_should_happen, "must not be nested");
 _no_class_loading_should_happen = true;`
Returns `none` when the assertion fires (flag already set), otherwise the new
flag value. -/
def NoClassLoadingMark_construct (flag : Bool) : Option Bool :=
  if flag then none else some true

/-- The `NoClassLoadingMark` destructor (lines 318-320):
`_no_class_loading_should_happen = false;` unconditionally. -/
def NoClassLoadingMark_destruct (_flag : Bool) : Bool := false

/-- A recorded verification constraint: the argument tuple of
`add_verification_constraint` (lines 288-290) apart from the subject class:
`(name, from_name, from_field_is_protected, from_is_array, from_is_object)`. -/
structure VC where
  name : Sym
  from_name : Sym
  from_field_is_protected : Bool
  from_is_array : Bool
  from_is_object : Bool
deriving DecidableEq

/-- Dump-time recorded state: per subject class (identified by a `Nat` id),
the accumulated list of verification constraints. -/
structure DumpState where
  constraints_of : List (Nat × List VC)
deriving DecidableEq

/-- Modelled from the spec: the body of
`SystemDictionaryShared::add_verification_constraint` lives in
systemDictionaryShared.cpp, which is absent; only its declaration with the
`NOT_CDS_RETURN_(false)` decoration (lines 288-290) is in the header.  Per
spec 4.3 the operation appends the constraint to the subject's set and, when
constraint tracking is disabled for the build configuration (non-CDS build,
i.e. `NOT_CDS_RETURN_(false)` expands the body to `return false;`), it
returns `false` and is a no-op. -/
def add_verification_constraint (cds_enabled : Bool) (st : DumpState)
    (k : Nat) (c : VC) : Bool × DumpState :=
  if cds_enabled then
    let rec add : List (Nat × List VC) → List (Nat × List VC)
      | [] => [(k, [c])]
      | (k2, cs) :: rest =>
          if k2 = k then (k2, cs ++ [c]) :: rest else (k2, cs) :: add rest
    (true, ⟨add st.constraints_of⟩)
  else
    (false, st)

/-- A package entry table, owned by a `ClassLoaderData`: maps package names
to package-entry identities. -/
structure PackageEntryTable where
  entries : List (Sym × Nat)
deriving DecidableEq

/-- Modelled from the spec: `PackageEntryTable::lookup_only` is declared in
classfile/packageEntry.hpp (absent from src); spec 4.4/§6 describe it as a
pure lookup (`package_lookup(name, loader_context) -> Option<PackageEntry>`)
that never inserts.  Embedded as a pure find over the table. -/
def lookup_only (t : PackageEntryTable) (pkg : Sym) : Option Nat :=
  (t.entries.find? (fun e => e.1 = pkg)).map Prod.snd

/-- A `ClassLoaderData`: the only field the embedded code touches is its
package table (`loader_data->packages()`). -/
structure ClassLoaderData where
  packages : PackageEntryTable
deriving DecidableEq

/-- Embeds `SystemDictionaryShared::get_package_entry` (lines 247-254):
```
if (loader_data != NULL) {
  PackageEntryTable* pkgEntryTable = loader_data->packages();
  return pkgEntryTable->lookup_only(pkg);
}
return NULL;
```
The `ClassLoaderData*` argument is `Option`-valued (`none` = NULL).  The
result is paired with the loader data after the call so that the absence of
mutation is explicit in the embedding. -/
def get_package_entry (pkg : Sym) (loader_data : Option ClassLoaderData) :
    Option Nat × Option ClassLoaderData :=
  match loader_data with
  | some ld => (lookup_only ld.packages pkg, some ld)
  | none => (none, none)

/-- A record of the `_unregistered_dictionary` (header block [4](b)): the
entry carries the class name and the class-file fingerprint
`(clsfile_len, clsfile_crc32)` recorded at dump time. -/
structure URecord where
  name : Sym
  clsfile_len : Nat
  clsfile_crc32 : Nat
deriving DecidableEq

/-- Modelled from the spec: the body of
`SystemDictionaryShared::lookup_from_stream` (declared lines 274-278) is in
the absent systemDictionaryShared.cpp.  Header block [4](b) and spec 4.5 give
the matching rule: an entry matches the query iff name AND clsfile_len AND
clsfile_crc32 are all equal. -/
def unreg_matches (r : URecord) (name : Sym) (len crc : Nat) : Bool :=
  decide (r.name = name) && decide (r.clsfile_len = len) &&
    decide (r.clsfile_crc32 = crc)

/-- Modelled from the spec: search of `_unregistered_dictionary` for an entry
that matches `(name, clsfile_len, clsfile_crc32)` (header block [4](b)). -/
def lookup_unregistered (dict : List URecord) (name : Sym) (len crc : Nat) :
    Option URecord :=
  dict.find? (fun r => unreg_matches r name len crc)

/-- One of the `_shared_xxx` `objArrayOop` arrays (lines 125-127): slots hold
an oop identity or NULL (`none`). -/
abbrev OopArray := List (Option Nat)

/-- Embeds `SystemDictionaryShared::atomic_set_array_index` (lines 185-191):
`array->atomic_compare_exchange_oop(index, o, NULL);` — publish `o` into the
slot only when the slot still holds NULL, otherwise leave the array
unchanged. -/
def atomic_set_array_index (arr : OopArray) (index : Nat) (o : Nat) : OopArray :=
  match arr.get? index with
  | some none => arr.set index (some o)
  | _ => arr

/-- Modelled from the spec: the `get_shared_protection_domain` /
`get_shared_jar_url` / `get_shared_jar_manifest` compute-and-publish bodies
are in the absent systemDictionaryShared.cpp; spec 4.6 composes them as: if
the slot is already published return the existing value without publishing,
otherwise publish the computed candidate through the in-source CAS and
return the value the slot then holds. -/
def get_or_compute (arr : OopArray) (index : Nat) (candidate : Nat) :
    Option Nat × OopArray :=
  match arr.get? index with
  | some (some existing) => (some existing, arr)
  | some none =>
      let arr2 := atomic_set_array_index arr index candidate
      ((arr2.get? index).join, arr2)
  | none => (none, arr)

/-- The single error of constraint replay (spec §7):
VerificationConstraintViolated. -/
inductive VerificationError where
  | VerificationConstraintViolated
deriving DecidableEq

/-- An archived class as seen by constraint replay: its name and its recorded
verification constraints. -/
structure ArchivedClass where
  name : Sym
  constraints : List VC
deriving DecidableEq

/-- Modelled from the spec: the body of
`SystemDictionaryShared::check_verification_constraints` (declared lines
291-292) is in the absent systemDictionaryShared.cpp.  Spec 4.3: replay
re-runs each recorded assignability fact against the live type hierarchy
(`holds`) and fails iff some fact no longer holds. -/
def check_verification_constraints (holds : VC → Bool) (k : ArchivedClass) :
    Except VerificationError Unit :=
  if k.constraints.all holds then Except.ok ()
  else Except.error VerificationError.VerificationConstraintViolated

/-- Outcome of loading one class at run time: reused from the archive, or
fallen back to normal parsing/verification. -/
inductive LoadOutcome where
  | fromArchive (k : ArchivedClass)
  | fallback (k : ArchivedClass)
deriving DecidableEq

/-- Modelled from the spec: per spec §7, a VerificationConstraintViolated
rejection is scoped to the single class, whose load falls back to normal
parsing/verification. -/
def load_one (holds : VC → Bool) (k : ArchivedClass) : LoadOutcome :=
  match check_verification_constraints holds k with
  | Except.ok _ => LoadOutcome.fromArchive k
  | Except.error _ => LoadOutcome.fallback k

/-- Modelled from the spec: each archived class is checked independently
(spec §7: "siblings unaffected"). -/
def load_all (holds : VC → Bool) (ks : List ArchivedClass) : List LoadOutcome :=
  ks.map (load_one holds)

/-- A run-time archived class record as reconstructed by the codec: qualified
name, storage category, optional fingerprint (UnregisteredCategory only),
supertype/interface references as archive-local integer ids, and the recorded
verification constraints (spec §3, ArchivedClassRecord). -/
structure RTRecord where
  name : Sym
  category : StorageCategory
  fingerprint : Option (Nat × Nat)
  supers : List Nat
  constraints : List VC
deriving DecidableEq

/-- A dump-time record: the run-time payload plus the exclusion flag set by
the dump-time exclusion checks (spec 4.2). -/
structure DumpRecord where
  name : Sym
  category : StorageCategory
  fingerprint : Option (Nat × Nat)
  supers : List Nat
  constraints : List VC
  excluded : Bool
deriving DecidableEq

/-- The run-time view of a dump-time record (the exclusion flag is dropped
when the record is handed to the codec). -/
def DumpRecord.toRT (r : DumpRecord) : RTRecord :=
  ⟨r.name, r.category, r.fingerprint, r.supers, r.constraints⟩

/-- Length-prefixed encoding of a byte sequence into the flat archive
region. -/
def encodeSym (s : Sym) : List Nat := s.length :: s

/-- Packs the three constraint flags into one word using the bit values of
the header enum (lines 114-118): FROM_FIELD_IS_PROTECTED = 1,
FROM_IS_ARRAY = 2, FROM_IS_OBJECT = 4. -/
def encodeFlags (p a o : Bool) : Nat :=
  (if p then 1 else 0) + (if a then 2 else 0) + (if o then 4 else 0)

/-- Flat encoding of one verification constraint. -/
def encodeVC (c : VC) : List Nat :=
  encodeSym c.name ++ encodeSym c.from_name ++
    [encodeFlags c.from_field_is_protected c.from_is_array c.from_is_object]

/-- Category tag written into a record header. -/
def encodeCategory : StorageCategory → Nat
  | StorageCategory.BuiltinCategory => 0
  | StorageCategory.UnregisteredCategory => 1

/-- Flat encoding of an optional fingerprint. -/
def encodeFingerprint : Option (Nat × Nat) → List Nat
  | none => [0]
  | some (l, c) => [1, l, c]

/-- Flat encoding of one class record: fixed-size header fields interleaved
with the variable-length name/supers/constraint regions (spec 4.4). -/
def encodeRecord (r : DumpRecord) : List Nat :=
  encodeSym r.name ++ [encodeCategory r.category] ++
    encodeFingerprint r.fingerprint ++ encodeSym r.supers ++
    r.constraints.length :: (r.constraints.map encodeVC).flatten

/-- Modelled from the spec: the bodies of
`SystemDictionaryShared::write_to_archive` / `write_dictionary` (declared
lines 301, 215-217) are in the absent systemDictionaryShared.cpp.  Spec 4.4:
write walks only included (non-excluded) records, writes a directory header
(the record count) and then the flat records. -/
def write_archive (table : List DumpRecord) : List Nat :=
  (table.filter (fun r => !r.excluded)).length ::
    ((table.filter (fun r => !r.excluded)).map encodeRecord).flatten

/-- The archive-level rejection reason of spec §7 relevant to structural
validation. -/
inductive ArchiveError where
  | ArchiveFormatInvalid
deriving DecidableEq

/-- Decoder for a length-prefixed byte sequence; fails when the declared
length exceeds the remaining region (spec 4.4 bounds check). -/
def decodeSym : List Nat → Option (Sym × List Nat)
  | [] => none
  | n :: rest =>
      if n ≤ rest.length then some (rest.take n, rest.drop n) else none

/-- Decoder for one verification constraint. -/
def decodeVC (ts : List Nat) : Option (VC × List Nat) :=
  (decodeSym ts).bind fun pr1 =>
    (decodeSym pr1.2).bind fun pr2 =>
      match pr2.2 with
      | [] => none
      | f :: ts3 =>
          some (⟨pr1.1, pr2.1, decide (f % 2 = 1), decide (f / 2 % 2 = 1),
                 decide (f / 4 % 2 = 1)⟩, ts3)

/-- Decoder for a category tag; any other tag is malformed. -/
def decodeCategory : Nat → Option StorageCategory
  | 0 => some StorageCategory.BuiltinCategory
  | 1 => some StorageCategory.UnregisteredCategory
  | _ => none

/-- Decoder for an optional fingerprint. -/
def decodeFingerprint : List Nat → Option (Option (Nat × Nat) × List Nat)
  | 0 :: rest => some (none, rest)
  | 1 :: l :: c :: rest => some (some (l, c), rest)
  | _ => none

/-- Decoder for a counted sequence of verification constraints. -/
def decodeVCs : Nat → List Nat → Option (List VC × List Nat)
  | 0, ts => some ([], ts)
  | n + 1, ts =>
      (decodeVC ts).bind fun pr =>
        (decodeVCs n pr.2).bind fun pr2 =>
          some (pr.1 :: pr2.1, pr2.2)

/-- Decoder for one class record. -/
def decodeRecord (ts : List Nat) : Option (RTRecord × List Nat) :=
  (decodeSym ts).bind fun prname =>
    match prname.2 with
    | [] => none
    | ctag :: ts2 =>
        (decodeCategory ctag).bind fun cat =>
          (decodeFingerprint ts2).bind fun prfp =>
            (decodeSym prfp.2).bind fun prsup =>
              match prsup.2 with
              | [] => none
              | ccount :: ts5 =>
                  (decodeVCs ccount ts5).bind fun prcs =>
                    some (⟨prname.1, cat, prfp.1, prsup.1, prcs.1⟩, prcs.2)

/-- Decoder for the counted record sequence named by the directory header. -/
def decodeRecords : Nat → List Nat → Option (List RTRecord × List Nat)
  | 0, ts => some ([], ts)
  | n + 1, ts =>
      (decodeRecord ts).bind fun pr =>
        (decodeRecords n pr.2).bind fun pr2 =>
          some (pr.1 :: pr2.1, pr2.2)

/-- Checks the supertype-id ordering invariant starting at position `pos`:
every id referenced by a record must be at or before the record's own
position (spec 4.4 / §8). -/
def supers_ok_from (pos : Nat) : List RTRecord → Bool
  | [] => true
  | r :: rest =>
      r.supers.all (fun id => decide (id ≤ pos)) && supers_ok_from (pos + 1) rest

/-- The supertype-id ordering invariant over a whole dictionary. -/
def supers_ok (recs : List RTRecord) : Bool := supers_ok_from 0 recs

/-- Modelled from the spec: the archive `read` path (spec 4.4), whose
implementation is in the absent systemDictionaryShared.cpp: validate the
directory header, decode exactly the declared records consuming the whole
region, validate the supertype-id ordering, and on any validation failure
reject the whole archive with ArchiveFormatInvalid (no partial dictionary). -/
def read_archive (bytes : List Nat) : Except ArchiveError (List RTRecord) :=
  match bytes with
  | [] => Except.error ArchiveError.ArchiveFormatInvalid
  | cnt :: rest =>
      match decodeRecords cnt rest with
      | none => Except.error ArchiveError.ArchiveFormatInvalid
      | some (recs, rem) =>
          if rem = [] then
            if supers_ok recs then Except.ok recs
            else Except.error ArchiveError.ArchiveFormatInvalid
          else Except.error ArchiveError.ArchiveFormatInvalid

/-- Result of resolving one class name at run time: either the archived
record is reused or the name goes through ordinary (non-archived) loading. -/
inductive LoadSource where
  | fromArchive (r : RTRecord)
  | ordinary (name : Sym)
deriving DecidableEq

/-- Modelled from the spec: the body of
`SystemDictionaryShared::is_shared_class_visible_for_classloader` (declared
lines 241-246) is in the absent systemDictionaryShared.cpp; spec 4.5
consumes it as a single predicate (`visible`) and treats a record that fails
it as a cache miss: no archived record is returned. -/
def resolve_from_archive (visible : RTRecord → Bool) (dict : List RTRecord)
    (name : Sym) : Option RTRecord :=
  match dict.find? (fun r => decide (r.name = name)) with
  | some r => if visible r then some r else none
  | none => none

/-- Modelled from the spec: `find_or_load_shared_class` (declared lines
231-233) falls back to ordinary class loading for the name whenever the
archived lookup misses (spec 4.5, §7 VisibilityDenied). -/
def find_or_load (visible : RTRecord → Bool) (dict : List RTRecord)
    (name : Sym) : LoadSource :=
  match resolve_from_archive visible dict name with
  | some r => LoadSource.fromArchive r
  | none => LoadSource.ordinary name

/-- A concrete dump table used to exercise the codec: class A (builtin,
included), class B (unregistered, fingerprint (120, 0xABCD1234), one
constraint, supertype id 0, included) and class C (excluded). -/
def sampleTable : List DumpRecord :=
  [⟨[65], StorageCategory.BuiltinCategory, none, [], [], false⟩,
   ⟨[66], StorageCategory.UnregisteredCategory, some (120, 2882343476), [0],
     [⟨[66], [65], false, false, true⟩], false⟩,
   ⟨[67], StorageCategory.BuiltinCategory, none, [], [], true⟩]

/-- A concrete record whose supertype id 1 points past its own position 0
(a forward reference), violating the ordering invariant. -/
def badRecord : DumpRecord :=
  ⟨[65], StorageCategory.BuiltinCategory, none, [1], [], false⟩

end SDShared

namespace SDShared

/-- C1: under the representation invariant of header block [3] (a shared
class's classpath index is either non-negative or the sentinel), `is_builtin`
returns true exactly for the non-negative indices, and `classify` agrees. -/
theorem is_builtin_iff_nonneg (idx : Int)
    (h : 0 ≤ idx ∨ idx = UNREGISTERED_INDEX) :
    (is_builtin idx = true ↔ 0 ≤ idx) ∧
    (is_builtin idx = true ↔ classify idx = StorageCategory.BuiltinCategory) := by
  have h1 : is_builtin idx = true ↔ idx ≠ UNREGISTERED_INDEX := by
    simp [is_builtin]
  have h2 : classify idx = StorageCategory.BuiltinCategory ↔ 0 ≤ idx := by
    unfold classify
    split
    · simp_all
    · simp_all
  have h3 : (idx ≠ UNREGISTERED_INDEX) ↔ 0 ≤ idx := by
    unfold UNREGISTERED_INDEX
    unfold UNREGISTERED_INDEX at h
    omega
  rw [h1, h2, h3]
  exact ⟨Iff.rfl, Iff.rfl⟩

/-- Witness for C1 at the concrete indices 3 and -9999. -/
theorem is_builtin_iff_nonneg_witness :
    ((0 ≤ (3 : Int) ∨ (3 : Int) = UNREGISTERED_INDEX) ∧
      (is_builtin 3 = true ↔ 0 ≤ (3 : Int))) ∧
    ((0 ≤ (-9999 : Int) ∨ (-9999 : Int) = UNREGISTERED_INDEX) ∧
      (is_builtin (-9999) = true ↔ 0 ≤ (-9999 : Int))) := by
  refine ⟨⟨Or.inl (by decide), (is_builtin_iff_nonneg 3 (Or.inl (by decide))).1⟩,
          ⟨Or.inr (by decide), (is_builtin_iff_nonneg (-9999) (Or.inr (by decide))).1⟩⟩

/-- C8: the reentrancy guard is a single flag: constructing a
`NoClassLoadingMark` asserts the flag is clear (nesting a second live mark
hits the assertion, modelled as `none`) and sets it; destruction clears it
unconditionally; while one mark is live `no_class_loading_should_happen` is
true and after destruction the flag is false. -/
theorem noClassLoadingMark_spec :
    (NoClassLoadingMark_construct true = none) ∧
    (NoClassLoadingMark_construct false = some true) ∧
    (∀ s, NoClassLoadingMark_construct false = some s →
       no_class_loading_should_happen s = true) ∧
    (∀ s, NoClassLoadingMark_destruct s = false) ∧
    (no_class_loading_should_happen (NoClassLoadingMark_destruct true) = false) := by
  refine ⟨rfl, rfl, ?_, fun s => rfl, rfl⟩
  intro s hs
  simp [NoClassLoadingMark_construct] at hs
  subst hs
  rfl

/-- Witness for C8: the universally quantified clauses instantiated at the
concrete flag states. -/
theorem noClassLoadingMark_spec_witness :
    no_class_loading_should_happen true = true ∧
    NoClassLoadingMark_destruct true = false :=
  ⟨noClassLoadingMark_spec.2.2.1 true rfl, noClassLoadingMark_spec.2.2.2.1 true⟩

/-- C9: with constraint tracking disabled (non-CDS build,
`NOT_CDS_RETURN_(false)`), `add_verification_constraint` returns false and
leaves the recorded state untouched, for every input. -/
theorem add_verification_constraint_disabled (st : DumpState) (k : Nat) (c : VC) :
    add_verification_constraint false st k c = (false, st) := by
  rfl

/-- C10: `get_package_entry` is total: a NULL loader data yields NULL without
consulting any package table, and a non-NULL one yields exactly the pure
`lookup_only` result; in both cases the loader data (hence its package table)
is unchanged. -/
theorem get_package_entry_total (pkg : Sym) :
    (get_package_entry pkg none = (none, none)) ∧
    (∀ ld : ClassLoaderData,
       get_package_entry pkg (some ld) = (lookup_only ld.packages pkg, some ld)) ∧
    (∀ o : Option ClassLoaderData, (get_package_entry pkg o).2 = o) := by
  refine ⟨rfl, fun ld => rfl, ?_⟩
  intro o
  cases o with
  | none => rfl
  | some ld => rfl

/-- C2: an unregistered-dictionary record matches a query iff name, class-file
length and crc32 are all equal, and changing any single one of the three
components of a matching query produces a miss (no record returned). -/
theorem unreg_lookup_fingerprint (r : URecord) (name : Sym) (len crc : Nat) :
    (unreg_matches r name len crc = true ↔
       r.name = name ∧ r.clsfile_len = len ∧ r.clsfile_crc32 = crc) ∧
    (∀ dict r2, lookup_unregistered dict name len crc = some r2 →
       r2.name = name ∧ r2.clsfile_len = len ∧ r2.clsfile_crc32 = crc) ∧
    (∀ n2, n2 ≠ r.name →
       lookup_unregistered [r] n2 r.clsfile_len r.clsfile_crc32 = none) ∧
    (∀ l2, l2 ≠ r.clsfile_len →
       lookup_unregistered [r] r.name l2 r.clsfile_crc32 = none) ∧
    (∀ c2, c2 ≠ r.clsfile_crc32 →
       lookup_unregistered [r] r.name r.clsfile_len c2 = none) := by
  have hm : ∀ (r2 : URecord) (n : Sym) (l c : Nat),
      unreg_matches r2 n l c = true ↔
        r2.name = n ∧ r2.clsfile_len = l ∧ r2.clsfile_crc32 = c := by
    intro r2 n l c
    simp [unreg_matches, and_assoc]
  refine ⟨hm r name len crc, ?_, ?_, ?_, ?_⟩
  · intro dict r2 hfind
    unfold lookup_unregistered at hfind
    have hp := List.find?_some hfind
    exact (hm r2 name len crc).mp hp
  · intro n2 hn
    simp only [lookup_unregistered, List.find?]
    have : unreg_matches r n2 r.clsfile_len r.clsfile_crc32 = false := by
      rw [Bool.eq_false_iff]
      intro hc
      exact hn (((hm r n2 _ _).mp hc).1.symm)
    rw [this]
  · intro l2 hl
    simp only [lookup_unregistered, List.find?]
    have : unreg_matches r r.name l2 r.clsfile_crc32 = false := by
      rw [Bool.eq_false_iff]
      intro hc
      exact hl (((hm r _ l2 _).mp hc).2.1.symm)
    rw [this]
  · intro c2 hc2
    simp only [lookup_unregistered, List.find?]
    have : unreg_matches r r.name r.clsfile_len c2 = false := by
      rw [Bool.eq_false_iff]
      intro hc
      exact hc2 (((hm r _ _ c2).mp hc).2.2.symm)
    rw [this]

/-- Witness for C2: the record B with fingerprint (120, 0xABCD1234); the
matching query hits and each single-component change misses. -/
theorem unreg_lookup_fingerprint_witness :
    (lookup_unregistered [⟨[66], 120, 2882343476⟩] [67] 120 2882343476 = none) ∧
    (lookup_unregistered [⟨[66], 120, 2882343476⟩] [66] 121 2882343476 = none) ∧
    (lookup_unregistered [⟨[66], 120, 2882343476⟩] [66] 120 2882343477 = none) ∧
    (lookup_unregistered [⟨[66], 120, 2882343476⟩] [66] 120 2882343476
       = some ⟨[66], 120, 2882343476⟩) :=
  ⟨(unreg_lookup_fingerprint ⟨[66], 120, 2882343476⟩ [66] 120 2882343476).2.2.1
      [67] (by decide),
   (unreg_lookup_fingerprint ⟨[66], 120, 2882343476⟩ [66] 120 2882343476).2.2.2.1
      121 (by decide),
   (unreg_lookup_fingerprint ⟨[66], 120, 2882343476⟩ [66] 120 2882343476).2.2.2.2
      2882343477 (by decide),
   by decide⟩

/-- Helper: a CAS publish into an already-published slot leaves the array
unchanged. -/
theorem atomic_set_already_published (arr : OopArray) (index : Nat) (x o : Nat)
    (h : arr.get? index = some (some x)) :
    atomic_set_array_index arr index o = arr := by
  unfold atomic_set_array_index
  rw [h]

/-- Helper: a CAS publish into an empty in-bounds slot stores the candidate. -/
theorem atomic_set_publishes (arr : OopArray) (index : Nat) (o : Nat)
    (h : arr.get? index = some none) :
    (atomic_set_array_index arr index o).get? index = some (some o) := by
  unfold atomic_set_array_index
  rw [h]
  have hlt : index < arr.length := by
    rcases List.get?_eq_some.mp h with ⟨hl, _⟩
    exact hl
  rw [List.get?_eq_getElem?, List.getElem?_set_self]
  simp [List.getElem?_eq_getElem, hlt]

/-- Helper: once a slot holds a value, any further sequence of CAS publishes
leaves that value in place. -/
theorem foldl_publish_stable (vs : List Nat) (arr : OopArray) (index : Nat)
    (x : Nat) (h : arr.get? index = some (some x)) :
    (vs.foldl (fun a w => atomic_set_array_index a index w) arr).get? index
      = some (some x) := by
  induction vs generalizing arr with
  | nil => simpa using h
  | cons v vs ih =>
    simp only [List.foldl_cons]
    rw [atomic_set_already_published arr index x v h]
    exact ih arr h

/-- Helper: `get_or_compute` on a published slot returns the existing value
and does not touch the array. -/
theorem get_or_compute_published (arr : OopArray) (index : Nat) (x cand : Nat)
    (h : arr.get? index = some (some x)) :
    get_or_compute arr index cand = (some x, arr) := by
  unfold get_or_compute
  rw [h]

/-- Helper: `get_or_compute` on an empty in-bounds slot publishes and returns
the candidate. -/
theorem get_or_compute_unpublished (arr : OopArray) (index : Nat) (cand : Nat)
    (h : arr.get? index = some none) :
    get_or_compute arr index cand
      = (some cand, atomic_set_array_index arr index cand) := by
  unfold get_or_compute
  rw [h]
  have hpub := atomic_set_publishes arr index cand h
  rw [List.get?_eq_getElem?] at hpub
  simp [Option.join, hpub]

/-- C5: security-metadata slots are write-once: publishing into a non-empty
slot changes nothing; publishing into an empty slot stores the candidate;
after a first publish, any further racing publishes leave the first value in
place; and two `get_or_compute` callers racing on a never-yet-published slot
both observe the first caller's value even though both computed a candidate. -/
theorem shared_array_write_once (arr : OopArray) (index : Nat) :
    (∀ x o, arr.get? index = some (some x) →
       atomic_set_array_index arr index o = arr) ∧
    (∀ o, arr.get? index = some none →
       (atomic_set_array_index arr index o).get? index = some (some o)) ∧
    (∀ v vs, arr.get? index = some none →
       ((v :: vs).foldl (fun a w => atomic_set_array_index a index w) arr).get? index
         = some (some v)) ∧
    (∀ v1 v2, arr.get? index = some none →
       (get_or_compute arr index v1).1 = some v1 ∧
       (get_or_compute (get_or_compute arr index v1).2 index v2).1 = some v1 ∧
       (get_or_compute (get_or_compute arr index v1).2 index v2).2
         = (get_or_compute arr index v1).2) := by
  refine ⟨fun x o h => atomic_set_already_published arr index x o h,
          fun o h => atomic_set_publishes arr index o h, ?_, ?_⟩
  · intro v vs h
    simp only [List.foldl_cons]
    exact foldl_publish_stable vs _ index v (atomic_set_publishes arr index v h)
  · intro v1 v2 h
    have h1 := get_or_compute_unpublished arr index v1 h
    have hpub := atomic_set_publishes arr index v1 h
    have h2 := get_or_compute_published (atomic_set_array_index arr index v1)
        index v1 v2 hpub
    rw [h1]
    simp [h2]

/-- Witness for C5 on the concrete one-slot arrays `[some 7]` and `[none]`. -/
theorem shared_array_write_once_witness :
    atomic_set_array_index [some 7] 0 9 = [some 7] ∧
    (atomic_set_array_index [none] 0 9).get? 0 = some (some 9) ∧
    (get_or_compute [none] 0 5).1 = some 5 ∧
    (get_or_compute (get_or_compute [none] 0 5).2 0 6).1 = some 5 :=
  ⟨(shared_array_write_once [some 7] 0).1 7 9 rfl,
   (shared_array_write_once [none] 0).2.1 9 rfl,
   ((shared_array_write_once [none] 0).2.2.2 5 6 rfl).1,
   ((shared_array_write_once [none] 0).2.2.2 5 6 rfl).2.1⟩

/-- C6: constraint replay fails with VerificationConstraintViolated iff some
recorded fact no longer holds against the live hierarchy; a failing class
falls back to normal loading while a passing class is reused; and the
outcome of every other archived class is unaffected by this class. -/
theorem check_constraints_replay (holds : VC → Bool) (k : ArchivedClass) :
    (check_verification_constraints holds k
        = Except.error VerificationError.VerificationConstraintViolated
      ↔ ∃ c ∈ k.constraints, holds c = false) ∧
    (check_verification_constraints holds k
        = Except.error VerificationError.VerificationConstraintViolated →
       load_one holds k = LoadOutcome.fallback k) ∧
    (check_verification_constraints holds k = Except.ok () →
       load_one holds k = LoadOutcome.fromArchive k) ∧
    (∀ pre post, load_all holds (pre ++ k :: post)
        = load_all holds pre ++ load_one holds k :: load_all holds post) := by
  have hkey : check_verification_constraints holds k
      = Except.error VerificationError.VerificationConstraintViolated
      ↔ ∃ c ∈ k.constraints, holds c = false := by
    unfold check_verification_constraints
    by_cases hall : k.constraints.all holds = true
    · rw [if_pos hall]
      rw [List.all_eq_true] at hall
      constructor
      · intro hc
        cases hc
      · rintro ⟨c, hc, hf⟩
        rw [hall c hc] at hf
        cases hf
    · rw [if_neg hall]
      rw [List.all_eq_true] at hall
      push_neg at hall
      simp only [Bool.not_eq_true] at hall
      exact ⟨fun _ => hall, fun _ => rfl⟩
  refine ⟨hkey, ?_, ?_, ?_⟩
  · intro herr
    unfold load_one
    rw [herr]
  · intro hok
    unfold load_one
    rw [hok]
  · intro pre post
    simp [load_all]

/-- Witness for C6: a class with one recorded constraint that the live
hierarchy no longer satisfies is rejected and falls back. -/
theorem check_constraints_replay_witness :
    (check_verification_constraints (fun _ => false)
        ⟨[65], [⟨[66], [67], false, false, true⟩]⟩
      = Except.error VerificationError.VerificationConstraintViolated) ∧
    load_one (fun _ => false) ⟨[65], [⟨[66], [67], false, false, true⟩]⟩
      = LoadOutcome.fallback ⟨[65], [⟨[66], [67], false, false, true⟩]⟩ :=
  ⟨(check_constraints_replay (fun _ => false)
      ⟨[65], [⟨[66], [67], false, false, true⟩]⟩).1.mpr
      ⟨⟨[66], [67], false, false, true⟩, by simp, rfl⟩,
   (check_constraints_replay (fun _ => false)
      ⟨[65], [⟨[66], [67], false, false, true⟩]⟩).2.1 rfl⟩

/-- Helper: decoding a length-prefixed sequence recovers it and the rest. -/
theorem decodeSym_encodeSym (s : Sym) (rest : List Nat) :
    decodeSym (encodeSym s ++ rest) = some (s, rest) := by
  simp only [encodeSym, List.cons_append, decodeSym]
  rw [if_pos]
  · rw [List.take_left, List.drop_left]
  · simp

/-- Helper: the packed flag word decodes back to the three flags. -/
theorem decodeFlags_encodeFlags (p a o : Bool) :
    (decide (encodeFlags p a o % 2 = 1) = p) ∧
    (decide (encodeFlags p a o / 2 % 2 = 1) = a) ∧
    (decide (encodeFlags p a o / 4 % 2 = 1) = o) := by
  cases p <;> cases a <;> cases o <;> decide

/-- Helper: decoding an encoded verification constraint recovers it. -/
theorem decodeVC_encodeVC (c : VC) (rest : List Nat) :
    decodeVC (encodeVC c ++ rest) = some (c, rest) := by
  obtain ⟨n, fn, p, a, o⟩ := c
  obtain ⟨h1, h2, h3⟩ := decodeFlags_encodeFlags p a o
  simp [decodeVC, encodeVC, List.append_assoc, decodeSym_encodeSym, h1, h2, h3]

/-- Helper: decoding an encoded constraint list recovers it. -/
theorem decodeVCs_encode (cs : List VC) (rest : List Nat) :
    decodeVCs cs.length ((cs.map encodeVC).flatten ++ rest) = some (cs, rest) := by
  induction cs with
  | nil => simp [decodeVCs]
  | cons c cs ih =>
    simp [decodeVCs, List.append_assoc, decodeVC_encodeVC, ih]

/-- Helper: decoding an encoded record recovers its run-time view. -/
theorem decodeRecord_encodeRecord (r : DumpRecord) (rest : List Nat) :
    decodeRecord (encodeRecord r ++ rest) = some (r.toRT, rest) := by
  obtain ⟨n, cat, fp, sup, cs, ex⟩ := r
  simp only [encodeRecord, List.append_assoc, List.cons_append]
  unfold decodeRecord
  rw [decodeSym_encodeSym]
  cases cat <;> cases fp <;>
    simp [decodeCategory, encodeCategory, encodeFingerprint, decodeFingerprint,
          decodeSym_encodeSym, List.append_assoc, decodeVCs_encode,
          DumpRecord.toRT]

/-- Helper: decoding an encoded record sequence recovers the run-time views. -/
theorem decodeRecords_encode (rs : List DumpRecord) (rest : List Nat) :
    decodeRecords rs.length ((rs.map encodeRecord).flatten ++ rest)
      = some (rs.map DumpRecord.toRT, rest) := by
  induction rs with
  | nil => simp [decodeRecords]
  | cons r rs ih =>
    simp [decodeRecords, List.append_assoc, decodeRecord_encodeRecord, ih]

/-- Helper: the ordering check from position `p` holds iff every record's
referenced ids are at or before its own (shifted) position. -/
theorem supers_ok_from_iff (recs : List RTRecord) (p : Nat) :
    supers_ok_from p recs = true ↔
      ∀ i r, recs.get? i = some r → ∀ id ∈ r.supers, id ≤ p + i := by
  induction recs generalizing p with
  | nil =>
    simp [supers_ok_from]
  | cons r rest ih =>
    simp only [supers_ok_from, Bool.and_eq_true, List.all_eq_true,
               decide_eq_true_eq, ih]
    constructor
    · rintro ⟨h1, h2⟩ i r2 hget id hid
      cases i with
      | zero =>
        simp only [List.get?] at hget
        cases hget
        have := h1 id hid
        omega
      | succ j =>
        have := h2 j r2 (by simpa using hget) id hid
        omega
    · intro hmain
      constructor
      · intro id hid
        have := hmain 0 r rfl id hid
        omega
      · intro i r2 hget id hid
        have := hmain (i + 1) r2 (by simpa using hget) id hid
        omega

/-- C3: archive round-trip: serializing a dump table with write and
deserializing the bytes with read reproduces, for every included
(non-excluded) record, a record with the identical name, category,
fingerprint and constraint set; excluded records are omitted.  The read
succeeds under the dump-time guarantee that the included records satisfy
the supertype-id ordering invariant read validates. -/
theorem archive_roundtrip (table : List DumpRecord)
    (hsup : supers_ok ((table.filter (fun r => !r.excluded)).map DumpRecord.toRT)
              = true) :
    read_archive (write_archive table)
      = Except.ok ((table.filter (fun r => !r.excluded)).map DumpRecord.toRT) ∧
    ∀ r ∈ table, r.excluded = false →
      ∃ r2 ∈ (table.filter (fun r2 => !r2.excluded)).map DumpRecord.toRT,
        r2.name = r.name ∧ r2.category = r.category ∧
        r2.fingerprint = r.fingerprint ∧ r2.constraints = r.constraints := by
  have hread : read_archive (write_archive table)
      = Except.ok ((table.filter (fun r => !r.excluded)).map DumpRecord.toRT) := by
    have hdec := decodeRecords_encode (table.filter (fun r => !r.excluded)) []
    rw [List.append_nil] at hdec
    simp only [write_archive, read_archive, hdec]
    rw [if_pos trivial, if_pos hsup]
  refine ⟨hread, ?_⟩
  intro r hr hex
  refine ⟨r.toRT, ?_, rfl, rfl, rfl, rfl⟩
  exact List.mem_map_of_mem _ (List.mem_filter.mpr ⟨hr, by simp [hex]⟩)

/-- Witness for C3: the concrete sample table round-trips; its excluded
third record is dropped and the two included records come back identical. -/
theorem archive_roundtrip_witness :
    supers_ok ((sampleTable.filter (fun r => !r.excluded)).map DumpRecord.toRT)
        = true ∧
    read_archive (write_archive sampleTable)
      = Except.ok ((sampleTable.filter (fun r => !r.excluded)).map
          DumpRecord.toRT) :=
  ⟨by decide, (archive_roundtrip sampleTable (by decide)).1⟩

/-- C4: every archive accepted by read satisfies the supertype-id ordering
invariant (each referenced id is at or before the referencing record's
position); an otherwise well-formed archive that violates it is rejected in
its entirety with ArchiveFormatInvalid; and a rejected archive never yields
a dictionary (no partial load). -/
theorem read_rejects_forward_refs (bytes : List Nat) :
    (∀ recs, read_archive bytes = Except.ok recs →
       ∀ i r, recs.get? i = some r → ∀ id ∈ r.supers, id ≤ i) ∧
    (∀ cnt rest recs, bytes = cnt :: rest →
       decodeRecords cnt rest = some (recs, []) →
       (∃ i r, recs.get? i = some r ∧ ∃ id ∈ r.supers, i < id) →
       read_archive bytes = Except.error ArchiveError.ArchiveFormatInvalid) ∧
    (read_archive bytes = Except.error ArchiveError.ArchiveFormatInvalid →
       ∀ recs, read_archive bytes ≠ Except.ok recs) := by
  refine ⟨?_, ?_, ?_⟩
  · intro recs hok i r hget id hid
    cases bytes with
    | nil => simp [read_archive] at hok
    | cons cnt rest =>
      cases hdec : decodeRecords cnt rest with
      | none =>
        simp only [read_archive, hdec] at hok
        exact (Except.noConfusion hok)
      | some pr =>
        obtain ⟨recs2, rem⟩ := pr
        simp only [read_archive, hdec] at hok
        by_cases hrem : rem = []
        · rw [if_pos hrem] at hok
          by_cases hsup : supers_ok recs2 = true
          · rw [if_pos hsup] at hok
            cases hok
            have := (supers_ok_from_iff recs 0).mp hsup i r hget id hid
            omega
          · rw [if_neg hsup] at hok
            cases hok
        · rw [if_neg hrem] at hok
          cases hok
  · rintro cnt rest recs hbytes hdec ⟨i, r, hget, id, hid, hlt⟩
    subst hbytes
    simp only [read_archive, hdec]
    rw [if_pos trivial]
    have hsup : ¬ supers_ok recs = true := by
      intro hs
      have := (supers_ok_from_iff recs 0).mp hs i r hget id hid
      omega
    rw [if_neg hsup]
  · intro herr recs hok
    rw [herr] at hok
    cases hok

/-- Witness for C4: a one-record archive whose record references supertype
id 1 from position 0 (a forward reference) is rejected wholesale. -/
theorem read_rejects_forward_refs_witness :
    read_archive (write_archive [badRecord])
      = Except.error ArchiveError.ArchiveFormatInvalid :=
  (read_rejects_forward_refs (write_archive [badRecord])).2.1
    1 (encodeRecord badRecord) [badRecord.toRT] (by decide)
    (by decide) ⟨0, badRecord.toRT, by decide, 1, by decide, by decide⟩

/-- C7: a dictionary record for the requested name that fails the
loader-visibility check is a cache miss, not an error: no archived record
is returned, and the caller falls back to ordinary non-archived loading,
exactly as if the archive held no record for the name. -/
theorem visibility_denied_is_miss (visible : RTRecord → Bool)
    (dict : List RTRecord) (name : Sym) (r : RTRecord)
    (hfind : dict.find? (fun r2 => decide (r2.name = name)) = some r)
    (hvis : visible r = false) :
    resolve_from_archive visible dict name = none ∧
    find_or_load visible dict name = LoadSource.ordinary name ∧
    find_or_load visible dict name = find_or_load visible [] name := by
  have h1 : resolve_from_archive visible dict name = none := by
    simp [resolve_from_archive, hfind, hvis]
  refine ⟨h1, ?_, ?_⟩
  · unfold find_or_load
    rw [h1]
  · unfold find_or_load
    rw [h1]
    rfl

/-- Witness for C7: the archived record for class A is found but invisible
to the requesting loader, so resolution misses and loading is ordinary. -/
theorem visibility_denied_is_miss_witness :
    resolve_from_archive (fun _ => false)
      [⟨[65], StorageCategory.BuiltinCategory, none, [], []⟩] [65] = none ∧
    find_or_load (fun _ => false)
      [⟨[65], StorageCategory.BuiltinCategory, none, [], []⟩] [65]
      = LoadSource.ordinary [65] :=
  ⟨(visibility_denied_is_miss (fun _ => false)
      [⟨[65], StorageCategory.BuiltinCategory, none, [], []⟩] [65]
      ⟨[65], StorageCategory.BuiltinCategory, none, [], []⟩ (by decide) rfl).1,
   (visibility_denied_is_miss (fun _ => false)
      [⟨[65], StorageCategory.BuiltinCategory, none, [], []⟩] [65]
      ⟨[65], StorageCategory.BuiltinCategory, none, [], []⟩ (by decide) rfl).2.1⟩

end SDShared
